import Mathlib

/-!
Verification of the `PegInsertionSide-v1` task logic
(`mani_skill/envs/tasks/tabletop/peg_insertion_side.py`).

Each environment instance is modelled independently (the batch dimension is
data parallelism with no cross-instance reads).  Rigid transforms are
modelled as a rotation unit quaternion together with a translation stored as
a pure-imaginary quaternion, which is exactly the `(p, q)` representation
used by the simulator's `Pose` objects.
-/

namespace PegInsertionSide

noncomputable section

/-- Modelled from the spec (§4.3 Pose Algebra Layer, §6): pose
composition/inversion is consumed from the physics collaborator
(`mani_skill.utils.structs.Pose` / `sapien.Pose`, not under `src/`).  A pose
is a rotation unit quaternion `q` and a translation `p` (stored as a
pure-imaginary quaternion); for a unit quaternion the inverse rotation is
the conjugate `star q`. -/
structure Pose3 where
  q : Quaternion ℝ
  p : Quaternion ℝ

/-- Rotation action of a unit quaternion on a vector: `q * v * star q`. -/
def rotate (q v : Quaternion ℝ) : Quaternion ℝ := q * v * star q

/-- Modelled from the spec (§4.3): pose composition
`(A ∘ B).q = A.q * B.q`, `(A ∘ B).p = A.p + A.q ⬝ B.p`. -/
def Pose3.mul (A B : Pose3) : Pose3 :=
  ⟨A.q * B.q, A.p + rotate A.q B.p⟩

/-- Modelled from the spec (§4.3): pose inversion for a unit rotation
quaternion: `inv(A).q = star A.q`, `inv(A).p = -(star A.q ⬝ A.p)`. -/
def Pose3.inv (A : Pose3) : Pose3 :=
  ⟨star A.q, -(rotate (star A.q) A.p)⟩

/-- The identity pose. -/
def Pose3.id : Pose3 := ⟨1, 0⟩

/-- `PegInsertionSideEnv._clearance = 0.003`. -/
def clearance : ℝ := 0.003

/-- Per-instance state of one parallel environment: the randomized geometry
parameters sampled in `_load_scene` (`lengths`, `radii`, `centers`), the
live actor poses of the peg and the box, the TCP (gripper) position, and the
externally supplied grasp predicate `agent.is_grasping(peg, max_angle=20)`. -/
structure EnvState where
  halfLength : ℝ
  radius : ℝ
  center1 : ℝ
  center2 : ℝ
  peg : Pose3
  box : Pose3
  tcpPos : Quaternion ℝ
  isGrasped : Bool

/-- `self.peg_head_offsets`: pure translation of `half_length` along the
peg's local x-axis (`peg_head_offsets[:, 0] = self.peg_half_sizes[:, 0]`). -/
def pegHeadOffsets (s : EnvState) : Pose3 :=
  ⟨1, ⟨0, s.halfLength, 0, 0⟩⟩

/-- `self.box_hole_offsets`: pure translation of the hole center `(y, z)`
offset (`box_hole_offsets[:, 1:] = centers`). -/
def boxHoleOffsets (s : EnvState) : Pose3 :=
  ⟨1, ⟨0, 0, s.center1, s.center2⟩⟩

/-- `self.box_hole_radii = radii + self._clearance`. -/
def boxHoleRadii (s : EnvState) : ℝ := s.radius + clearance

/-- `peg_head_pos = self.peg.pose.p + self.peg_head_offsets.p`
(componentwise vector addition, no rotation applied). -/
def pegHeadPos (s : EnvState) : Quaternion ℝ :=
  s.peg.p + (pegHeadOffsets s).p

/-- `peg_head_pose = self.peg.pose * self.peg_head_offsets`. -/
def pegHeadPose (s : EnvState) : Pose3 :=
  s.peg.mul (pegHeadOffsets s)

/-- `box_hole_pose = self.box.pose * self.box_hole_offsets`. -/
def boxHolePose (s : EnvState) : Pose3 :=
  s.box.mul (boxHoleOffsets s)

/-- `goal_pose = self.box.pose * self.box_hole_offsets * self.peg_head_offsets.inv()`. -/
def goalPose (s : EnvState) : Pose3 :=
  (s.box.mul (boxHoleOffsets s)).mul (pegHeadOffsets s).inv

/-- `peg_head_pos_at_hole = (self.box_hole_pose.inv() * self.peg_head_pose).p`. -/
def pegHeadPosAtHole (s : EnvState) : Quaternion ℝ :=
  ((boxHolePose s).inv.mul (pegHeadPose s)).p

/-- `has_peg_inserted`: `x_flag & y_flag & z_flag` with
`x_flag = -0.015 <= x`, `y_flag = -r <= y <= r`, `z_flag = -r <= z <= r`
where `(x, y, z)` is `peg_head_pos_at_hole` and `r = box_hole_radii`. -/
def hasPegInserted (s : EnvState) : Prop :=
  (-0.015 ≤ (pegHeadPosAtHole s).imI) ∧
    (-(boxHoleRadii s) ≤ (pegHeadPosAtHole s).imJ ∧
      (pegHeadPosAtHole s).imJ ≤ boxHoleRadii s) ∧
    (-(boxHoleRadii s) ≤ (pegHeadPosAtHole s).imK ∧
      (pegHeadPosAtHole s).imK ≤ boxHoleRadii s)

/-- State used for the concrete success-predicate examples: box at the
origin with identity rotation, zero hole-center offset, peg radius `0.015`
so that `box_hole_radii = 0.018`, and the peg translated so that its head
sits at the requested local-frame position `v`. -/
def exampleState (v : Quaternion ℝ) : EnvState :=
  { halfLength := 0.1
    radius := 0.015
    center1 := 0
    center2 := 0
    peg := ⟨1, v + ⟨0, -0.1, 0, 0⟩⟩
    box := Pose3.id
    tcpPos := 0
    isGrasped := false }

/-- **C1.** The success predicate holds iff the peg head position expressed
in the hole's local frame satisfies `x ≥ -0.015`, `|y| ≤ hole_radius` and
`|z| ≤ hole_radius`; with the hole frame at the origin with identity
rotation and `hole_radius = 0.018`, a head at local position
`(0, 0.01, -0.01)` succeeds, while `(-0.02, 0, 0)` and `(0, 0.02, 0)`
do not. -/
theorem hasPegInserted_iff_and_examples :
    (∀ s : EnvState,
      hasPegInserted s ↔
        (-0.015 ≤ (pegHeadPosAtHole s).imI ∧
          |(pegHeadPosAtHole s).imJ| ≤ boxHoleRadii s ∧
          |(pegHeadPosAtHole s).imK| ≤ boxHoleRadii s)) ∧
    hasPegInserted (exampleState ⟨0, 0, 0.01, -0.01⟩) ∧
    ¬ hasPegInserted (exampleState ⟨0, -0.02, 0, 0⟩) ∧
    ¬ hasPegInserted (exampleState ⟨0, 0, 0.02, 0⟩) := by
  refine ⟨fun s => by rw [hasPegInserted, abs_le, abs_le], ?_, ?_, ?_⟩ <;>
    simp [hasPegInserted, pegHeadPosAtHole, boxHolePose, pegHeadPose,
      Pose3.mul, Pose3.inv, Pose3.id, rotate, pegHeadOffsets, boxHoleOffsets,
      boxHoleRadii, clearance, exampleState, Quaternion.ext_iff] <;>
    norm_num

/-- Concrete state with the box displaced and rotated offsets, peg at the
identity; used to witness that `goal_pose` ignores the peg's pose. -/
def stateBoxOnlyA : EnvState :=
  { halfLength := 0.1
    radius := 0.02
    center1 := 0.01
    center2 := -0.01
    peg := Pose3.id
    box := ⟨1, ⟨0, 0, 1, 0⟩⟩
    tcpPos := 0
    isGrasped := false }

/-- Same state as `stateBoxOnlyA` except for the peg's pose. -/
def stateBoxOnlyB : EnvState :=
  { halfLength := 0.1
    radius := 0.02
    center1 := 0.01
    center2 := -0.01
    peg := ⟨⟨0, 0, 0, 1⟩, ⟨0, 0.3, 0, 0⟩⟩
    box := ⟨1, ⟨0, 0, 1, 0⟩⟩
    tcpPos := 0
    isGrasped := false }

/-- **C3.** `goal_pose = box.pose ∘ box_hole_offset ∘ invert(peg_head_offset)`,
and it depends only on the box pose and the fixed offsets: two states that
agree on the box pose and the randomized offset parameters have the same
`goal_pose`, whatever their peg poses. -/
theorem goalPose_formula_and_peg_independent :
    (∀ s : EnvState,
      goalPose s = (s.box.mul (boxHoleOffsets s)).mul (pegHeadOffsets s).inv) ∧
    (∀ s₁ s₂ : EnvState, s₁.box = s₂.box → s₁.halfLength = s₂.halfLength →
      s₁.center1 = s₂.center1 → s₁.center2 = s₂.center2 →
      goalPose s₁ = goalPose s₂) := by
  refine ⟨fun s => rfl, fun s₁ s₂ hb hl h1 h2 => ?_⟩
  simp [goalPose, boxHoleOffsets, pegHeadOffsets, hb, hl, h1, h2]

/-- Witness for **C3**: the two concrete states differ only in the peg's
pose, and their goal poses coincide. -/
theorem goalPose_peg_independent_witness :
    goalPose stateBoxOnlyA = goalPose stateBoxOnlyB ∧
      stateBoxOnlyA.peg ≠ stateBoxOnlyB.peg :=
  ⟨goalPose_formula_and_peg_independent.2 stateBoxOnlyA stateBoxOnlyB
      rfl rfl rfl rfl,
    by simp [stateBoxOnlyA, stateBoxOnlyB, Pose3.id, Quaternion.ext_iff]⟩

/-- Concrete state whose peg is rotated by 180° about the z-axis
(quaternion `k`), so that the head offset `(1, 0, 0)` is not fixed by the
peg's rotation. -/
def rotatedPegState : EnvState :=
  { halfLength := 1
    radius := 0.02
    center1 := 0
    center2 := 0
    peg := ⟨⟨0, 0, 0, 1⟩, 0⟩
    box := Pose3.id
    tcpPos := 0
    isGrasped := false }

/-- **C9.** `peg_head_pos` adds the head offset without rotating it:
it equals `peg.pose.p + peg_head_offsets.p`; it agrees with the position of
`peg_head_pose = peg.pose ∘ peg_head_offsets` exactly when the peg's
rotation fixes the local offset vector `(half_length, 0, 0)`, and there is a
peg orientation for which the two disagree. -/
theorem pegHeadPos_vs_pegHeadPose :
    (∀ s : EnvState, pegHeadPos s = s.peg.p + (pegHeadOffsets s).p) ∧
    (∀ s : EnvState,
      pegHeadPos s = (pegHeadPose s).p ↔
        rotate s.peg.q (pegHeadOffsets s).p = (pegHeadOffsets s).p) ∧
    (∃ s : EnvState, pegHeadPos s ≠ (pegHeadPose s).p) := by
  refine ⟨fun s => rfl, fun s => ?_, ⟨rotatedPegState, ?_⟩⟩
  · rw [pegHeadPos, pegHeadPose, Pose3.mul, add_right_inj]
    exact eq_comm
  · simp [pegHeadPos, pegHeadPose, Pose3.mul, rotate, pegHeadOffsets,
      rotatedPegState, Quaternion.ext_iff]
    norm_num

/-- **C6.** For every instance whose sampled radius lies in the configured
range `[0.015, 0.025]`, the stored hole radius is exactly `radius + 0.003`. -/
theorem boxHoleRadii_eq_radius_add_clearance (s : EnvState)
    (h₁ : 0.015 ≤ s.radius) (h₂ : s.radius ≤ 0.025) :
    boxHoleRadii s = s.radius + 0.003 := rfl

/-- Witness for **C6** at a concrete instance with radius `0.015`. -/
theorem boxHoleRadii_eq_witness :
    0.015 ≤ (exampleState 0).radius ∧ (exampleState 0).radius ≤ 0.025 ∧
      boxHoleRadii (exampleState 0) = (exampleState 0).radius + 0.003 :=
  ⟨by norm_num [exampleState], by norm_num [exampleState],
    boxHoleRadii_eq_radius_add_clearance (exampleState 0)
      (by norm_num [exampleState]) (by norm_num [exampleState])⟩

/-- Composition of two translation-only poses is translation by the sum. -/
theorem Pose3.mul_translation (p p' : Quaternion ℝ) :
    (⟨1, p⟩ : Pose3).mul ⟨1, p'⟩ = ⟨1, p + p'⟩ := by
  simp [Pose3.mul, rotate]

/-- The inverse of a translation-only pose is translation by the negation. -/
theorem Pose3.inv_translation (p : Quaternion ℝ) :
    (⟨1, p⟩ : Pose3).inv = ⟨1, -p⟩ := by
  simp [Pose3.inv, rotate]

/-- `tanh` is bounded above by `1`. -/
theorem tanh_lt_one (x : ℝ) : Real.tanh x < 1 := by
  rw [Real.tanh_eq_sinh_div_cosh, div_lt_one (Real.cosh_pos x)]
  exact Real.sinh_lt_cosh x

/-- `tanh` is nonnegative on nonnegative arguments. -/
theorem tanh_nonneg {x : ℝ} (hx : 0 ≤ x) : 0 ≤ Real.tanh x := by
  rw [Real.tanh_eq_sinh_div_cosh]
  refine div_nonneg ?_ (Real.cosh_pos x).le
  rw [← Real.sinh_zero]
  exact Real.sinh_le_sinh.mpr hx

/-- `tanh` is strictly increasing. -/
theorem tanh_lt_tanh_of_lt {x y : ℝ} (h : x < y) :
    Real.tanh x < Real.tanh y := by
  rw [Real.tanh_eq_sinh_div_cosh, Real.tanh_eq_sinh_div_cosh,
    div_lt_div_iff (Real.cosh_pos x) (Real.cosh_pos y)]
  have h₁ : 0 < Real.sinh (y - x) := Real.sinh_pos_iff.mpr (by linarith)
  have h₂ := Real.sinh_sub y x
  nlinarith [h₁, h₂]

/-- Euclidean norm of a position vector stored as a pure-imaginary
quaternion (`torch.linalg.norm(..., axis=1)` over the 3 components). -/
def norm3 (v : Quaternion ℝ) : ℝ :=
  Real.sqrt (v.imI ^ 2 + v.imJ ^ 2 + v.imK ^ 2)

/-- Euclidean norm of the `(y, z)` components of a position vector
(`torch.linalg.norm(p[:, 1:], axis=1)`). -/
def normYZ (v : Quaternion ℝ) : ℝ :=
  Real.sqrt (v.imJ ^ 2 + v.imK ^ 2)

theorem norm3_nonneg (v : Quaternion ℝ) : 0 ≤ norm3 v := Real.sqrt_nonneg _

theorem normYZ_nonneg (v : Quaternion ℝ) : 0 ≤ normYZ v := Real.sqrt_nonneg _

open Classical in
/-- Indicator of a condition as the real `1`/`0`, modelling a boolean tensor
multiplied into a reward term. -/
def indicator (P : Prop) : ℝ := if P then 1 else 0

theorem indicator_of_true {P : Prop} (h : P) : indicator P = 1 := if_pos h

theorem indicator_nonneg (P : Prop) : 0 ≤ indicator P := by
  unfold indicator; split <;> norm_num

theorem indicator_le_one (P : Prop) : indicator P ≤ 1 := by
  unfold indicator; split <;> norm_num

/-- `offset = sapien.Pose([-0.06, 0, 0])`, accounting for the gripper
width. -/
def graspOffset : Pose3 := ⟨1, ⟨0, -0.06, 0, 0⟩⟩

/-- `gripper_to_peg_dist = norm(gripper_pos - (peg.pose * offset).p)`. -/
def gripperToPegDist (s : EnvState) : ℝ :=
  norm3 (s.tcpPos - (s.peg.mul graspOffset).p)

/-- `reaching_reward = 1 - tanh(4.0 * gripper_to_peg_dist)`. -/
def reachingReward (s : EnvState) : ℝ :=
  1 - Real.tanh (4 * gripperToPegDist s)

/-- The grasp flag `is_grasped` converted to a real summand. -/
def graspInd (s : EnvState) : ℝ := if s.isGrasped then 1 else 0

/-- `peg_head_wrt_goal_yz_dist = norm((goal_pose.inv() * peg_head_pose).p[:, 1:])`. -/
def pegHeadWrtGoalYZDist (s : EnvState) : ℝ :=
  normYZ ((goalPose s).inv.mul (pegHeadPose s)).p

/-- `peg_wrt_goal_yz_dist = norm((goal_pose.inv() * peg.pose).p[:, 1:])`. -/
def pegWrtGoalYZDist (s : EnvState) : ℝ :=
  normYZ ((goalPose s).inv.mul s.peg).p

/-- `pre_insertion_reward = 3 * (1 - tanh(0.5 * (d_head + d_body) + 4.5 *
max(d_head, d_body)))`. -/
def preInsertionReward (s : EnvState) : ℝ :=
  3 * (1 - Real.tanh (0.5 * (pegHeadWrtGoalYZDist s + pegWrtGoalYZDist s) +
    4.5 * max (pegHeadWrtGoalYZDist s) (pegWrtGoalYZDist s)))

/-- `pre_inserted = (peg_head_wrt_goal_yz_dist < 0.01) &
(peg_wrt_goal_yz_dist < 0.01)`. -/
def preInserted (s : EnvState) : Prop :=
  pegHeadWrtGoalYZDist s < 0.01 ∧ pegWrtGoalYZDist s < 0.01

/-- `insertion_reward = 5 * (1 - tanh(5.0 *
norm((box_hole_pose.inv() * peg_head_pose).p)))`. -/
def insertionReward (s : EnvState) : ℝ :=
  5 * (1 - Real.tanh (5 * norm3 (pegHeadPosAtHole s)))

/-- The gate `(is_grasped & pre_inserted)` of the insertion term. -/
def insertionGate (s : EnvState) : ℝ :=
  indicator (s.isGrasped = true ∧ preInserted s)

/-- The staged sum accumulated in `reward` before the success override. -/
def stagedReward (s : EnvState) : ℝ :=
  reachingReward s + graspInd s + preInsertionReward s * graspInd s +
    insertionReward s * insertionGate s

/-- `compute_dense_reward`: the staged sum, overridden to `10` on instances
whose `info["success"]` flag is set. -/
def computeDenseReward (s : EnvState) (success : Bool) : ℝ :=
  if success then 10 else stagedReward s

/-- `compute_normalized_dense_reward = compute_dense_reward / 10`. -/
def computeNormalizedDenseReward (s : EnvState) (success : Bool) : ℝ :=
  computeDenseReward s success / 10

/-- **C2.** Whenever the success flag passed in `info` is true, the dense
reward is exactly `10` — whatever the staged terms are — and the normalized
dense reward is exactly `1`. -/
theorem dense_reward_terminal (s : EnvState) :
    computeDenseReward s true = 10 ∧
      computeNormalizedDenseReward s true = 1 := by
  constructor <;> norm_num [computeDenseReward, computeNormalizedDenseReward]

theorem reachingReward_bounds (s : EnvState) :
    0 ≤ reachingReward s ∧ reachingReward s ≤ 1 := by
  have hd : 0 ≤ gripperToPegDist s := norm3_nonneg _
  have h₁ := tanh_lt_one (4 * gripperToPegDist s)
  have h₂ : 0 ≤ Real.tanh (4 * gripperToPegDist s) := tanh_nonneg (by linarith)
  unfold reachingReward
  constructor <;> linarith

theorem graspInd_bounds (s : EnvState) :
    0 ≤ graspInd s ∧ graspInd s ≤ 1 := by
  unfold graspInd; split <;> norm_num

theorem preInsertionReward_bounds (s : EnvState) :
    0 ≤ preInsertionReward s ∧ preInsertionReward s ≤ 3 := by
  have ha : 0 ≤ pegHeadWrtGoalYZDist s := normYZ_nonneg _
  have hb : 0 ≤ pegWrtGoalYZDist s := normYZ_nonneg _
  have hmax : 0 ≤ max (pegHeadWrtGoalYZDist s) (pegWrtGoalYZDist s) :=
    le_trans ha (le_max_left _ _)
  have h₁ := tanh_lt_one (0.5 * (pegHeadWrtGoalYZDist s + pegWrtGoalYZDist s)
    + 4.5 * max (pegHeadWrtGoalYZDist s) (pegWrtGoalYZDist s))
  have h₂ : 0 ≤ Real.tanh (0.5 * (pegHeadWrtGoalYZDist s
      + pegWrtGoalYZDist s)
      + 4.5 * max (pegHeadWrtGoalYZDist s) (pegWrtGoalYZDist s)) :=
    tanh_nonneg (by linarith)
  unfold preInsertionReward
  constructor <;> linarith

theorem insertionReward_bounds (s : EnvState) :
    0 ≤ insertionReward s ∧ insertionReward s ≤ 5 := by
  have hd : 0 ≤ norm3 (pegHeadPosAtHole s) := norm3_nonneg _
  have h₁ := tanh_lt_one (5 * norm3 (pegHeadPosAtHole s))
  have h₂ : 0 ≤ Real.tanh (5 * norm3 (pegHeadPosAtHole s)) :=
    tanh_nonneg (by linarith)
  unfold insertionReward
  constructor <;> linarith

/-- **C8.** On instances whose success flag is false the dense reward is the
sum of four nonnegative terms bounded by `1`, `1`, `3` and `5`, and for
every input the dense reward lies in `[0, 10]` and the normalized dense
reward lies in `[0, 1]`. -/
theorem dense_reward_decomposition_and_bounds (s : EnvState) (b : Bool) :
    computeDenseReward s false =
      reachingReward s + graspInd s + preInsertionReward s * graspInd s +
        insertionReward s * insertionGate s ∧
    (0 ≤ reachingReward s ∧ reachingReward s ≤ 1) ∧
    (0 ≤ graspInd s ∧ graspInd s ≤ 1) ∧
    (0 ≤ preInsertionReward s * graspInd s ∧
      preInsertionReward s * graspInd s ≤ 3) ∧
    (0 ≤ insertionReward s * insertionGate s ∧
      insertionReward s * insertionGate s ≤ 5) ∧
    (0 ≤ computeDenseReward s b ∧ computeDenseReward s b ≤ 10) ∧
    (0 ≤ computeNormalizedDenseReward s b ∧
      computeNormalizedDenseReward s b ≤ 1) := by
  obtain ⟨hr0, hr1⟩ := reachingReward_bounds s
  obtain ⟨hg0, hg1⟩ := graspInd_bounds s
  obtain ⟨hp0, hp3⟩ := preInsertionReward_bounds s
  obtain ⟨hi0, hi5⟩ := insertionReward_bounds s
  have hgate0 : 0 ≤ insertionGate s := indicator_nonneg _
  have hgate1 : insertionGate s ≤ 1 := indicator_le_one _
  have hpg0 : 0 ≤ preInsertionReward s * graspInd s := mul_nonneg hp0 hg0
  have hpg3 : preInsertionReward s * graspInd s ≤ 3 :=
    le_trans (mul_le_of_le_one_right hp0 hg1) hp3
  have hig0 : 0 ≤ insertionReward s * insertionGate s :=
    mul_nonneg hi0 hgate0
  have hig5 : insertionReward s * insertionGate s ≤ 5 :=
    le_trans (mul_le_of_le_one_right hi0 hgate1) hi5
  have hst0 : 0 ≤ stagedReward s := by unfold stagedReward; linarith
  have hst10 : stagedReward s ≤ 10 := by unfold stagedReward; linarith
  have hd0 : 0 ≤ computeDenseReward s b := by
    unfold computeDenseReward; split
    · norm_num
    · exact hst0
  have hd10 : computeDenseReward s b ≤ 10 := by
    unfold computeDenseReward; split
    · norm_num
    · linarith
  have hn0 : 0 ≤ computeNormalizedDenseReward s b :=
    div_nonneg hd0 (by norm_num)
  have hn1 : computeNormalizedDenseReward s b ≤ 1 := by
    unfold computeNormalizedDenseReward
    rw [div_le_one (by norm_num : (0 : ℝ) < 10)]
    exact hd10
  exact ⟨by simp [computeDenseReward, stagedReward], ⟨hr0, hr1⟩, ⟨hg0, hg1⟩,
    ⟨hpg0, hpg3⟩, ⟨hig0, hig5⟩, ⟨hd0, hd10⟩, ⟨hn0, hn1⟩⟩

/-- **C5.** With the grasp and pre-insertion gates held true, the gated
insertion term `5 * (1 - tanh(5 * n))` is strictly decreasing in the norm
`n` of the peg head's local offset in the hole frame. -/
theorem insertion_term_strict_decreasing (s₁ s₂ : EnvState)
    (hg₁ : s₁.isGrasped = true) (hg₂ : s₂.isGrasped = true)
    (hp₁ : preInserted s₁) (hp₂ : preInserted s₂)
    (h : norm3 (pegHeadPosAtHole s₁) < norm3 (pegHeadPosAtHole s₂)) :
    insertionReward s₂ * insertionGate s₂ <
      insertionReward s₁ * insertionGate s₁ := by
  rw [insertionGate, insertionGate, indicator_of_true ⟨hg₂, hp₂⟩,
    indicator_of_true ⟨hg₁, hp₁⟩, mul_one, mul_one]
  have htanh := tanh_lt_tanh_of_lt
    (mul_lt_mul_of_pos_left h (by norm_num : (0 : ℝ) < 5))
  unfold insertionReward
  linarith

/-- Concrete grasped, pre-inserted state whose peg head sits exactly at the
hole center (insertion-offset norm `0`). -/
def insertStateA : EnvState :=
  { halfLength := 0.1
    radius := 0.02
    center1 := 0
    center2 := 0
    peg := ⟨1, ⟨0, -0.1, 0, 0⟩⟩
    box := Pose3.id
    tcpPos := 0
    isGrasped := true }

/-- Same as `insertStateA` but with the peg backed off along the hole axis,
insertion-offset norm `0.5`. -/
def insertStateB : EnvState :=
  { halfLength := 0.1
    radius := 0.02
    center1 := 0
    center2 := 0
    peg := ⟨1, ⟨0, 0.4, 0, 0⟩⟩
    box := Pose3.id
    tcpPos := 0
    isGrasped := true }

/-- Witness for **C5**: the two concrete states are grasped and
pre-inserted, their insertion-offset norms are `0 < 0.5`, and the gated
insertion term is strictly larger at the smaller norm. -/
theorem insertion_term_strict_decreasing_witness :
    insertStateA.isGrasped = true ∧ insertStateB.isGrasped = true ∧
    preInserted insertStateA ∧ preInserted insertStateB ∧
    norm3 (pegHeadPosAtHole insertStateA) <
      norm3 (pegHeadPosAtHole insertStateB) ∧
    insertionReward insertStateB * insertionGate insertStateB <
      insertionReward insertStateA * insertionGate insertStateA := by
  have hpA : preInserted insertStateA := by
    constructor <;>
      · simp [preInserted, pegHeadWrtGoalYZDist, pegWrtGoalYZDist, normYZ,
          goalPose, pegHeadPose, Pose3.mul, Pose3.inv, Pose3.id, rotate,
          pegHeadOffsets, boxHoleOffsets, insertStateA]
        norm_num
  have hpB : preInserted insertStateB := by
    constructor <;>
      · simp [preInserted, pegHeadWrtGoalYZDist, pegWrtGoalYZDist, normYZ,
          goalPose, pegHeadPose, Pose3.mul, Pose3.inv, Pose3.id, rotate,
          pegHeadOffsets, boxHoleOffsets, insertStateB]
        norm_num
  have hn : norm3 (pegHeadPosAtHole insertStateA) <
      norm3 (pegHeadPosAtHole insertStateB) := by
    simp [norm3, pegHeadPosAtHole, boxHolePose, pegHeadPose, Pose3.mul,
      Pose3.inv, Pose3.id, rotate, pegHeadOffsets, boxHoleOffsets,
      insertStateA, insertStateB]
    norm_num
  exact ⟨rfl, rfl, hpA, hpB, hn,
    insertion_term_strict_decreasing insertStateA insertStateB
      rfl rfl hpA hpB hn⟩

/-- `__init__`: `if reconfiguration_freq is None: reconfiguration_freq = 1
if num_envs == 1 else 0`. -/
def defaultReconfigurationFreq (numEnvs : ℕ)
    (reconfigurationFreq : Option ℕ) : ℕ :=
  match reconfigurationFreq with
  | none => if numEnvs = 1 then 1 else 0
  | some f => f

/-- Modelled from the spec: the reconfiguration scheduler lives in `BaseEnv`
(not under `src/`); per the spec (§3, §5) reconfiguration of the randomized
geometry is rate-limited by the configured frequency — a frequency `f > 0`
regenerates the geometry every `f`-th episode reset, and `f = 0` never
re-randomizes after the initial build. -/
def reconfiguresAtReset (freq resets : ℕ) : Bool :=
  freq != 0 && resets % freq == 0

/-- **C10.** With `reconfiguration_freq` unspecified, the constructor
defaults it to `1` when `num_envs = 1` and to `0` otherwise; with frequency
`0` the randomized geometry is never re-randomized at any later reset. -/
theorem reconfigurationFreq_default :
    defaultReconfigurationFreq 1 none = 1 ∧
    (∀ n : ℕ, n ≠ 1 → defaultReconfigurationFreq n none = 0) ∧
    (∀ resets : ℕ, reconfiguresAtReset 0 resets = false) := by
  refine ⟨rfl, fun n hn => ?_, fun resets => ?_⟩
  · simp [defaultReconfigurationFreq, hn]
  · simp [reconfiguresAtReset]

/-- Witness for **C10** at the concrete batch size `4 ≠ 1`. -/
theorem reconfigurationFreq_default_witness :
    (4 : ℕ) ≠ 1 ∧ defaultReconfigurationFreq 4 none = 0 :=
  ⟨by decide, reconfigurationFreq_default.2.1 4 (by decide)⟩

/-- Modelled from the spec (§4.4, §6): `randomization.uniform(low, high)`
(not under `src/`) draws componentwise uniformly from `[low, high]`; a draw
is `low + u * (high - low)` for some `u ∈ [0, 1]`. -/
def uniformSample (low high u : ℝ) : ℝ := low + u * (high - low)

/-- The configured peg spawn rectangle
`low=[-0.1, -0.3], high=[0.1, 0]` of `_initialize_episode`. -/
def pegXYRect : Set (ℝ × ℝ) :=
  {v | -0.1 ≤ v.1 ∧ v.1 ≤ 0.1 ∧ -0.3 ≤ v.2 ∧ v.2 ≤ 0}

/-- The configured box spawn rectangle
`low=[-0.05, 0.2], high=[0.05, 0.4]` of `_initialize_episode`. -/
def boxXYRect : Set (ℝ × ℝ) :=
  {v | -0.05 ≤ v.1 ∧ v.1 ≤ 0.05 ∧ 0.2 ≤ v.2 ∧ v.2 ≤ 0.4}

/-- A peg xy draw of `_initialize_episode`. -/
def pegXYSample (u v : ℝ) : ℝ × ℝ :=
  (uniformSample (-0.1) 0.1 u, uniformSample (-0.3) 0 v)

/-- A box xy draw of `_initialize_episode`. -/
def boxXYSample (u v : ℝ) : ℝ × ℝ :=
  (uniformSample (-0.05) 0.05 u, uniformSample 0.2 0.4 v)

theorem uniformSample_mem {low high u : ℝ} (h : low ≤ high)
    (hu : u ∈ Set.Icc (0 : ℝ) 1) :
    low ≤ uniformSample low high u ∧ uniformSample low high u ≤ high := by
  obtain ⟨h0, h1⟩ := hu
  unfold uniformSample
  constructor <;> nlinarith

/-- **C7.** Every sampled peg xy position lies in
`[-0.1, 0.1] × [-0.3, 0]`, every sampled box xy position lies in
`[-0.05, 0.05] × [0.2, 0.4]`, and the two configured rectangles are
disjoint. -/
theorem spawn_rectangles_disjoint (u₁ v₁ u₂ v₂ : ℝ)
    (hu₁ : u₁ ∈ Set.Icc (0 : ℝ) 1) (hv₁ : v₁ ∈ Set.Icc (0 : ℝ) 1)
    (hu₂ : u₂ ∈ Set.Icc (0 : ℝ) 1) (hv₂ : v₂ ∈ Set.Icc (0 : ℝ) 1) :
    pegXYSample u₁ v₁ ∈ pegXYRect ∧ boxXYSample u₂ v₂ ∈ boxXYRect ∧
      Disjoint pegXYRect boxXYRect := by
  obtain ⟨ha₁, ha₂⟩ := uniformSample_mem (by norm_num : (-0.1 : ℝ) ≤ 0.1) hu₁
  obtain ⟨hb₁, hb₂⟩ := uniformSample_mem (by norm_num : (-0.3 : ℝ) ≤ 0) hv₁
  obtain ⟨hc₁, hc₂⟩ := uniformSample_mem (by norm_num : (-0.05 : ℝ) ≤ 0.05) hu₂
  obtain ⟨hd₁, hd₂⟩ := uniformSample_mem (by norm_num : (0.2 : ℝ) ≤ 0.4) hv₂
  refine ⟨⟨ha₁, ha₂, hb₁, hb₂⟩, ⟨hc₁, hc₂, hd₁, hd₂⟩,
    Set.disjoint_left.mpr fun v hv hv' => ?_⟩
  obtain ⟨-, -, -, h₄⟩ := hv
  obtain ⟨-, -, h₃', -⟩ := hv'
  linarith

/-- Witness for **C7** at the draws `u = v = 1/2`. -/
theorem spawn_rectangles_disjoint_witness :
    (1 / 2 : ℝ) ∈ Set.Icc (0 : ℝ) 1 ∧
      (pegXYSample (1 / 2) (1 / 2) ∈ pegXYRect ∧
        boxXYSample (1 / 2) (1 / 2) ∈ boxXYRect ∧
        Disjoint pegXYRect boxXYRect) :=
  ⟨by constructor <;> norm_num,
    spawn_rectangles_disjoint (1 / 2) (1 / 2) (1 / 2) (1 / 2)
      (by constructor <;> norm_num) (by constructor <;> norm_num)
      (by constructor <;> norm_num) (by constructor <;> norm_num)⟩

/-- An axis-aligned box primitive of `_build_box_with_hole`: center `c` and
half-sizes `h` in local `(x, y, z)` coordinates. -/
def boxSet (c h : ℝ × ℝ × ℝ) : Set (ℝ × ℝ × ℝ) :=
  {v | |v.1 - c.1| ≤ h.1 ∧ |v.2.1 - c.2.1| ≤ h.2.1 ∧ |v.2.2 - c.2.2| ≤ h.2.2}

/-- `thickness = (outer_radius - inner_radius) * 0.5`. -/
def thickness (innerRadius outerRadius : ℝ) : ℝ :=
  (outerRadius - innerRadius) * 0.5

/-- The union of the four box primitives built by `_build_box_with_hole`,
with the half-sizes and pose translations exactly as listed in the source
(`half_center = center * 0.5`, `offset = thickness + inner_radius`). -/
def boxWithHole (innerRadius outerRadius depth c₁ c₂ : ℝ) :
    Set (ℝ × ℝ × ℝ) :=
  boxSet (0, thickness innerRadius outerRadius + innerRadius + c₁ * 0.5, 0)
      (depth, thickness innerRadius outerRadius - c₁ * 0.5, outerRadius) ∪
    boxSet (0, -(thickness innerRadius outerRadius + innerRadius) + c₁ * 0.5, 0)
      (depth, thickness innerRadius outerRadius + c₁ * 0.5, outerRadius) ∪
    boxSet (0, 0, thickness innerRadius outerRadius + innerRadius + c₂ * 0.5)
      (depth, outerRadius, thickness innerRadius outerRadius - c₂ * 0.5) ∪
    boxSet (0, 0, -(thickness innerRadius outerRadius + innerRadius) + c₂ * 0.5)
      (depth, outerRadius, thickness innerRadius outerRadius + c₂ * 0.5)

/-- The shape asserted by the claim (stated from the spec's words, for
comparison with `boxWithHole`): the solid square cross-section spanning
`[-outer_radius, outer_radius]` in `y` and `z` (through-axis along local
`x`, `|x| ≤ depth`), minus the open rectangular hole of half-extent
`inner_radius` centered at the `(y, z)` offset `(c₁, c₂)`. -/
def specFrame (innerRadius outerRadius depth c₁ c₂ : ℝ) :
    Set (ℝ × ℝ × ℝ) :=
  {v | |v.1| ≤ depth ∧ |v.2.1| ≤ outerRadius ∧ |v.2.2| ≤ outerRadius ∧
    (innerRadius ≤ |v.2.1 - c₁| ∨ innerRadius ≤ |v.2.2 - c₂|)}

/-- **C4 (counterexample).** With `inner_radius = 1 < 2 = outer_radius` but
hole center `(4, 0)`, the union built by `_build_box_with_hole` is not the
claimed square frame: the point `(0, 2.5, 0)` lies in the second wall box,
which overshoots the claimed outer boundary `|y| ≤ 2`. -/
theorem boxWithHole_frame_counterexample :
    (1 : ℝ) < 2 ∧
      ((0 : ℝ), (2.5 : ℝ), (0 : ℝ)) ∈ boxWithHole 1 2 1 4 0 ∧
      ((0 : ℝ), (2.5 : ℝ), (0 : ℝ)) ∉ specFrame 1 2 1 4 0 := by
  refine ⟨by norm_num, ?_, ?_⟩
  · refine Or.inl (Or.inl (Or.inr ?_))
    simp only [boxSet, thickness, Set.mem_setOf_eq, abs_le]
    norm_num
  · simp only [specFrame, Set.mem_setOf_eq, abs_le]
    norm_num

/-- **C4 (amended).** For `0 ≤ inner_radius < outer_radius` and hole-center
offsets bounded by `outer_radius - inner_radius` in each axis (which holds
for every call made by `_load_scene`), the four box primitives' union is
exactly the square frame: outer boundary spanning
`[-outer_radius, outer_radius]` in `y` and `z`, through-hole of half-extent
`inner_radius` centered at `(c₁, c₂)`, hole axis along local `x`. -/
theorem boxWithHole_eq_specFrame (innerRadius outerRadius depth c₁ c₂ : ℝ)
    (h0 : 0 ≤ innerRadius) (hio : innerRadius < outerRadius)
    (hc₁ : |c₁| ≤ outerRadius - innerRadius)
    (hc₂ : |c₂| ≤ outerRadius - innerRadius) :
    boxWithHole innerRadius outerRadius depth c₁ c₂ =
      specFrame innerRadius outerRadius depth c₁ c₂ := by
  ext v
  obtain ⟨x, y, z⟩ := v
  rw [abs_le] at hc₁ hc₂
  simp only [boxWithHole, specFrame, boxSet, thickness, Set.mem_union,
    Set.mem_setOf_eq, abs_le, sub_zero]
  constructor
  · rintro (((⟨hx, hy, hz⟩ | ⟨hx, hy, hz⟩) | ⟨hx, hy, hz⟩) | ⟨hx, hy, hz⟩)
    · exact ⟨hx, ⟨by linarith [hy.1], by linarith [hy.2]⟩, hz,
        Or.inl (le_abs.mpr (Or.inl (by linarith [hy.1])))⟩
    · exact ⟨hx, ⟨by linarith [hy.1], by linarith [hy.2]⟩, hz,
        Or.inl (le_abs.mpr (Or.inr (by linarith [hy.2])))⟩
    · exact ⟨hx, hy, ⟨by linarith [hz.1], by linarith [hz.2]⟩,
        Or.inr (le_abs.mpr (Or.inl (by linarith [hz.1])))⟩
    · exact ⟨hx, hy, ⟨by linarith [hz.1], by linarith [hz.2]⟩,
        Or.inr (le_abs.mpr (Or.inr (by linarith [hz.2])))⟩
  · rintro ⟨hx, hy, hz, hy' | hz'⟩
    · rcases le_abs.mp hy' with h | h
      · exact Or.inl (Or.inl (Or.inl ⟨hx,
          ⟨by linarith [hy.2], by linarith [hy.2]⟩, hz⟩))
      · exact Or.inl (Or.inl (Or.inr ⟨hx,
          ⟨by linarith [hy.1], by linarith [hy.1]⟩, hz⟩))
    · rcases le_abs.mp hz' with h | h
      · exact Or.inl (Or.inr ⟨hx, hy,
          ⟨by linarith [hz.2], by linarith [hz.2]⟩⟩)
      · exact Or.inr ⟨hx, hy,
          ⟨by linarith [hz.1], by linarith [hz.1]⟩⟩

/-- Witness for the amended **C4** at the in-range parameters
`inner_radius = 0.018`, `outer_radius = depth = 0.1`,
center `(0.01, -0.01)`. -/
theorem boxWithHole_eq_specFrame_witness :
    (0 : ℝ) ≤ 0.018 ∧ (0.018 : ℝ) < 0.1 ∧
      |(0.01 : ℝ)| ≤ (0.1 : ℝ) - 0.018 ∧
      |(-0.01 : ℝ)| ≤ (0.1 : ℝ) - 0.018 ∧
      boxWithHole 0.018 0.1 0.1 0.01 (-0.01) =
        specFrame 0.018 0.1 0.1 0.01 (-0.01) :=
  ⟨by norm_num, by norm_num,
    by rw [abs_le]; constructor <;> norm_num,
    by rw [abs_le]; constructor <;> norm_num,
    boxWithHole_eq_specFrame 0.018 0.1 0.1 0.01 (-0.01) (by norm_num)
      (by norm_num) (by rw [abs_le]; constructor <;> norm_num)
      (by rw [abs_le]; constructor <;> norm_num)⟩

end

end PegInsertionSide
